import Mathlib

/-!
Verification of the marathon-photobooth backend (the Express server in the
repository): kiosk counter bookkeeping, session ledger, the generation
worker's success and failure paths, the admission rate limiter, the
priority work queue configuration, and the HTTP-facing generate handler.

Machine integers are modelled as `Nat` (timestamps in milliseconds,
counters, byte sizes); fallible steps return `Except String`.
-/

namespace Photobooth

/-- Status field of a session record in the `activeSessions` ledger. -/
inductive SessionStatus
  | processing
  | completed
  | failed
deriving DecidableEq, Repr

/-- One record of the `kioskStats` object: per-kiosk counters. -/
structure KioskCounters where
  total : Nat
  completed : Nat
  failed : Nat
  lastActive : Option Nat
deriving DecidableEq, Repr

/-- One record of the `activeSessions` map. -/
structure Session where
  kioskId : String
  startTime : Nat
  status : SessionStatus
  backgroundId : String
  gender : String
  endTime : Option Nat
  outputFile : Option String
  errMsg : Option String
deriving DecidableEq, Repr

/-- The mutable server state touched by the generation worker: the
`kioskStats` object (a partial map from kiosk identifier to counters)
and the `activeSessions` map (modelled as an association list in
insertion order, as a JS `Map` iterates in insertion order). -/
structure ServerState where
  kioskStats : String → Option KioskCounters
  activeSessions : List (String × Session)

/-- The known kiosk identifiers pre-provisioned in `kioskStats`. -/
def knownKiosks : List String := ["kiosk-1", "kiosk-2", "kiosk-3", "kiosk-4"]

/-- Counters at process start. -/
def zeroCounters : KioskCounters := ⟨0, 0, 0, none⟩

/-- The `kioskStats` object as initialised at the top of the server file:
one zeroed record per known kiosk, nothing else. -/
def initialKioskStats : String → Option KioskCounters := fun k =>
  if k = "kiosk-1" then some zeroCounters
  else if k = "kiosk-2" then some zeroCounters
  else if k = "kiosk-3" then some zeroCounters
  else if k = "kiosk-4" then some zeroCounters
  else none

/-- Server state at process start: pre-provisioned counters, empty ledger. -/
def initialServerState : ServerState :=
  { kioskStats := initialKioskStats, activeSessions := [] }

/-- One entry of the `BACKGROUNDS` configuration object. -/
structure BackgroundInfo where
  name : String
  file : String
  description : String
  lighting : String
deriving DecidableEq, Repr

/-- The `BACKGROUNDS` configuration object of the server. -/
def BACKGROUNDS : String → Option BackgroundInfo := fun id =>
  if id = "amsterdam-canal" then
    some ⟨"Amsterdam Canal", "amsterdam-canal.jpg",
      "Historic Amsterdam canal with traditional Dutch houses",
      "overcast Northern European light, soft shadows"⟩
  else if id = "vondelpark" then
    some ⟨"Vondelpark", "vondelpark.jpg",
      "Green park setting with trees and pathways",
      "dappled sunlight through trees, natural green tones"⟩
  else if id = "dam-square" then
    some ⟨"Dam Square", "dam-square.jpg",
      "Bustling city center with historic buildings",
      "urban daylight, mixed shadows from buildings"⟩
  else if id = "olympic-stadium" then
    some ⟨"Olympic Stadium", "olympic-stadium.png",
      "Modern stadium setting",
      "bright athletic venue lighting"⟩
  else none

/-- JS `Map.set`: replace the value when the key is present (keeping its
position), append otherwise. -/
def mapSet (sessions : List (String × Session)) (sid : String) (s : Session) :
    List (String × Session) :=
  if sessions.any (fun p => p.1 = sid) then
    sessions.map (fun p => if p.1 = sid then (sid, s) else p)
  else
    sessions ++ [(sid, s)]

/-- JS `Map.get` on the session ledger. -/
def mapGet (sessions : List (String × Session)) (sid : String) : Option Session :=
  (sessions.find? (fun p => p.1 = sid)).map Prod.snd

/-- Update the counter record of one kiosk, leaving every other key alone. -/
def updateStats (st : ServerState) (kioskId : String)
    (f : KioskCounters → KioskCounters) : ServerState :=
  { st with kioskStats := fun k =>
      if k = kioskId then (st.kioskStats kioskId).map f else st.kioskStats k }

/-- Entry block of `processGeneration` (before the `try`): `total++` and
`lastActive` update on `kioskStats[kioskId]`, then `activeSessions.set`
of a fresh record in `processing` state. When the kiosk identifier has
no counter record, `kioskStats[kioskId].total++` throws a `TypeError`
before any of these effects happen, which `none` models. -/
def workerEntry (st : ServerState) (sid kioskId backgroundId gender : String)
    (startTime : Nat) : Option ServerState :=
  match st.kioskStats kioskId with
  | none => none
  | some c =>
    some { kioskStats := fun k =>
             if k = kioskId then
               some { c with total := c.total + 1, lastActive := some startTime }
             else st.kioskStats k,
           activeSessions := mapSet st.activeSessions sid
             ⟨kioskId, startTime, .processing, backgroundId, gender, none, none, none⟩ }

/-- Success block of `processGeneration`: mark the session `completed`
with its end time and output file, then `kioskStats[kioskId].completed++`.
Both statements run in one synchronous segment of the worker. -/
def workerSuccess (st : ServerState) (sid kioskId filename : String)
    (endTime : Nat) : ServerState :=
  let old : Session :=
    (mapGet st.activeSessions sid).getD ⟨kioskId, 0, .processing, "", "", none, none, none⟩
  let upd : Session :=
    { old with status := .completed, endTime := some endTime, outputFile := some filename }
  let st1 : ServerState := { st with activeSessions := mapSet st.activeSessions sid upd }
  updateStats st1 kioskId (fun c => { c with completed := c.completed + 1 })

/-- Catch block of `processGeneration`: mark the session `failed` with the
error message and end time, then `kioskStats[kioskId].failed++`. -/
def workerFailure (st : ServerState) (sid kioskId msg : String)
    (endTime : Nat) : ServerState :=
  let old : Session :=
    (mapGet st.activeSessions sid).getD ⟨kioskId, 0, .processing, "", "", none, none, none⟩
  let upd : Session :=
    { old with status := .failed, errMsg := some msg, endTime := some endTime }
  let st1 : ServerState := { st with activeSessions := mapSet st.activeSessions sid upd }
  updateStats st1 kioskId (fun c => { c with failed := c.failed + 1 })

/-- Outcome of the external generation call (`model.generateContent`):
either the promise rejects with an error message, or it resolves with a
list of response parts, each optionally carrying inline image data. -/
inductive UpstreamResult
  | failure (msg : String)
  | response (parts : List (Option String))
deriving DecidableEq, Repr

/-- First response part that carries inline image data, as the `for` loop
over `parts` finds it. -/
def firstData : List (Option String) → Option String
  | [] => none
  | some d :: _ => some d
  | none :: rest => firstData rest

/-- Environment of one worker invocation: outcomes of the I/O steps the
worker awaits, and the wall-clock time at which it reaches its terminal
update. -/
structure GenEnv where
  readBackground : Except String Unit
  upstream : UpstreamResult
  writeFile : Except String Unit
  endTime : Nat
deriving Repr

/-- Error message the `try` block of `processGeneration` ends with, for a
run that reaches the upstream call and fails there: the upstream
rejection's own message, or the thrown `No image generated` when the
response carries no inline image data. -/
def upstreamFailureMsg : UpstreamResult → Option String
  | .failure m => some m
  | .response parts =>
    match firstData parts with
    | none => some "No image generated"
    | some _ => none

/-- Output filename built on the success path. -/
def marathonFilename (kioskId : String) (time : Nat) (sid : String) : String :=
  "marathon_" ++ kioskId ++ "_" ++ toString time ++ "_" ++ sid.take 8 ++ ".png"

/-- Result object resolved by a successful worker run. -/
structure GenSuccess where
  imageUrl : String
  sessionId : String
  kioskId : String
deriving DecidableEq, Repr

/-- The `try` block of `processGeneration` after the entry block:
background lookup, background read, upstream call, output write.
Returns the output filename, or the error message the block throws. -/
def workerTryBlock (kioskId backgroundId sid : String) (env : GenEnv) :
    Except String String :=
  match BACKGROUNDS backgroundId with
  | none => .error "Invalid background selection"
  | some _ =>
    match env.readBackground with
    | .error e => .error e
    | .ok _ =>
      match env.upstream with
      | .failure m => .error m
      | .response parts =>
        match firstData parts with
        | none => .error "No image generated"
        | some _ =>
          match env.writeFile with
          | .error e => .error e
          | .ok _ => .ok (marathonFilename kioskId env.endTime sid)

/-- The whole `processGeneration` worker body of the main server file:
entry bookkeeping, the `try` block, and the terminal update on either
path. The thrown error is re-raised (`Except.error`) to the awaiter. -/
def processGeneration (st : ServerState) (sid kioskId backgroundId gender : String)
    (startTime : Nat) (env : GenEnv) : ServerState × Except String GenSuccess :=
  match workerEntry st sid kioskId backgroundId gender startTime with
  | none =>
    (st, .error "TypeError: cannot read total of undefined")
  | some st1 =>
    match workerTryBlock kioskId backgroundId sid env with
    | .ok filename =>
      (workerSuccess st1 sid kioskId filename env.endTime,
       .ok ⟨"/outputs/" ++ filename, sid, kioskId⟩)
    | .error m =>
      (workerFailure st1 sid kioskId m env.endTime, .error m)

/-- Retention threshold of the session sweep: one hour in milliseconds. -/
def sessionMaxAge : Nat := 60 * 60 * 1000

/-- The periodic session sweep (`setInterval` body): delete every session
whose `startTime` is strictly below `now` minus one hour, regardless of
its status. -/
def sweep (st : ServerState) (now : Nat) : ServerState :=
  { st with activeSessions :=
      st.activeSessions.filter (fun p => ¬ (p.2.startTime < now - sessionMaxAge)) }

/-- Number of sessions in the ledger owned by kiosk `k` whose status is
`processing`. -/
def inFlight (st : ServerState) (k : String) : Nat :=
  (st.activeSessions.filter
    (fun p => p.2.kioskId = k ∧ p.2.status = .processing)).length

/-- The spec's counter invariant: for every kiosk that has a counter
record, `total = completed + failed + inFlight`. -/
def counterInvariant (st : ServerState) : Prop :=
  ∀ k c, st.kioskStats k = some c →
    c.total = c.completed + c.failed + inFlight st k

/-- Association-list well-formedness of the session ledger: keys are
distinct, as they are in a JS `Map`. -/
def ledgerWf (st : ServerState) : Prop :=
  (st.activeSessions.map Prod.fst).Nodup

/-! ## The priority work queue

Modelled from the spec: the scheduler itself lives in the `p-queue`
dependency, not in this repository, so its dequeue algorithm is taken
from the specification (highest priority first, FIFO among equal
priority, a hard concurrency ceiling, and a rolling dispatch-rate
ceiling); the configuration constants `concurrency = 2`,
`interval = 1000` and `intervalCap = 3` are the ones passed to the
queue's constructor in the server file. -/

/-- `concurrency` option of `generationQueue`. -/
def maxConcurrency : Nat := 2

/-- `interval` option of `generationQueue`, in milliseconds. -/
def dispatchWindow : Nat := 1000

/-- `intervalCap` option of `generationQueue`. -/
def maxDispatchesPerWindow : Nat := 3

/-- A queued unit of work: its priority class and its enqueue index
(assigned in arrival order, so smaller index means earlier submission). -/
structure Task where
  priority : Int
  enqueueIndex : Nat
deriving DecidableEq, Repr

/-- Scheduler state: the queued tasks, the running tasks, the timestamps
of all past queued-to-running transitions (most recent first), the
current clock, and the next enqueue index to hand out. -/
structure QueueState where
  queued : List Task
  running : List Task
  dispatchLog : List Nat
  clock : Nat
  nextIndex : Nat
deriving DecidableEq, Repr

/-- Scheduler state before any submission. -/
def initQueueState : QueueState := ⟨[], [], [], 0, 0⟩

/-- Strict comparison between tasks: `a` is dispatched in preference to
`b` when it has higher priority, or equal priority and an earlier
enqueue index. -/
def beats (a b : Task) : Bool :=
  a.priority > b.priority ∨ (a.priority = b.priority ∧ a.enqueueIndex < b.enqueueIndex)

/-- Selection of the next task to dispatch: the highest-priority queued
task, ties broken by earliest enqueue index. -/
def selectNext : List Task → Option Task
  | [] => none
  | t :: ts =>
    match selectNext ts with
    | none => some t
    | some u => if beats u t then some u else some t

/-- Number of queued-to-running transitions inside the trailing window
`(t - dispatchWindow, t]`. -/
def windowCount (log : List Nat) (t : Nat) : Nat :=
  (log.filter (fun ts => decide (ts ≤ t) && decide (t < ts + dispatchWindow))).length

/-- Transitions that still consume rate budget at clock `c`: those with
`c < ts + dispatchWindow`. Every logged timestamp is at most the clock,
so on reachable states this is the trailing-window count at `c`. -/
def recentCount (log : List Nat) (c : Nat) : Nat :=
  (log.filter (fun ts => decide (c < ts + dispatchWindow))).length

/-- Effect of dispatching task `t`: remove it from the queue, add it to
the running set, log the transition at the current clock. -/
def dispatchResult (s : QueueState) (t : Task) : QueueState :=
  { s with queued := s.queued.erase t,
           running := t :: s.running,
           dispatchLog := s.clock :: s.dispatchLog }

/-- Modelled from the spec: the dispatch algorithm itself lives in the
p-queue dependency and is not under src/, so this transition relation
follows the specification's dequeue rule. One scheduler transition: a
submission joins the queue; the selected task is dispatched when both
the concurrency ceiling and the rolling rate ceiling have headroom; a
running task finishes (successfully or not) and releases its slot; or
time passes. -/
inductive QStep : QueueState → QueueState → Prop
  | enqueue (s : QueueState) (p : Int) :
      QStep s { s with queued := s.queued ++ [⟨p, s.nextIndex⟩],
                       nextIndex := s.nextIndex + 1 }
  | dispatch (s : QueueState) (t : Task)
      (hsel : selectNext s.queued = some t)
      (hconc : s.running.length < maxConcurrency)
      (hrate : recentCount s.dispatchLog s.clock < maxDispatchesPerWindow) :
      QStep s (dispatchResult s t)
  | complete (s : QueueState) (t : Task) (h : t ∈ s.running) :
      QStep s { s with running := s.running.erase t }
  | tick (s : QueueState) (d : Nat) :
      QStep s { s with clock := s.clock + d }

/-- States reachable from the empty scheduler. -/
def QReachable (s : QueueState) : Prop :=
  Relation.ReflTransGen QStep initQueueState s

/-- Priority assigned to a submission by the generate handler:
`kioskId === 'kiosk-3' ? 1 : 0`. -/
def priorityFor (kioskId : String) : Int :=
  if kioskId = "kiosk-3" then 1 else 0

/-! ## The admission rate limiter

Modelled from the spec: the limiter implementation lives in the
`express-rate-limit` dependency, so the sliding-window algorithm is the
one described in the specification (per-key trailing window of duration
W holding a count of admitted requests; reject at M, otherwise record
and admit); the constants `windowMs = 60000` and `max = 5`, the key
derivation from the `x-kiosk-id` header with fallback key `unknown`,
and the `test-script` skip predicate are the ones configured in the
server files. -/

/-- `windowMs` option of the limiter. -/
def rlWindowMs : Nat := 60 * 1000

/-- `max` option of the limiter. -/
def rlMax : Nat := 5

/-- Limiter state: per key, the timestamps of admitted requests
(most recent first). -/
structure LimiterState where
  hits : String → List Nat

/-- Limiter state at process start: no recorded requests. -/
def initLimiterState : LimiterState := ⟨fun _ => []⟩

/-- Admitted requests of a key inside the trailing window
`(now - rlWindowMs, now]`. -/
def windowHits (hits : List Nat) (now : Nat) : Nat :=
  (hits.filter (fun ts => decide (ts ≤ now) && decide (now < ts + rlWindowMs))).length

/-- `keyGenerator` of the limiter: the `x-kiosk-id` header, or the shared
key `unknown` when the header is missing. -/
def kioskKey (header : Option String) : String := header.getD "unknown"

/-- Modelled from the spec: the window accounting lives in the
express-rate-limit dependency and is not under src/, so it follows the
specification's sliding-window rule. Admission for one key: reject once
the key has `rlMax` admitted requests inside the trailing window,
otherwise record this request and admit it. -/
def limiterAdmit (st : LimiterState) (key : String) (now : Nat) :
    LimiterState × Bool :=
  if windowHits (st.hits key) now < rlMax then
    (⟨fun k => if k = key then now :: st.hits key else st.hits k⟩, true)
  else
    (st, false)

/-- The `kioskLimiter` middleware of the main server file: no skip
predicate, sliding-window admission keyed by kiosk header. -/
def kioskLimiter (st : LimiterState) (header : Option String) (now : Nat) :
    LimiterState × Bool :=
  limiterAdmit st (kioskKey header) now

/-- The `kioskLimiter` middleware of the S3 server file: identical except
that a request whose kiosk header is exactly `test-script` is skipped
before any window accounting. -/
def kioskLimiterS3 (st : LimiterState) (header : Option String) (now : Nat) :
    LimiterState × Bool :=
  if header = some "test-script" then (st, true)
  else limiterAdmit st (kioskKey header) now

/-- Run the main limiter over a sequence of request times from one
client, collecting the admission decisions in order. -/
def runLimiter (st : LimiterState) (header : Option String) :
    List Nat → LimiterState × List Bool
  | [] => (st, [])
  | t :: ts =>
    let r1 := kioskLimiter st header t
    let r2 := runLimiter r1.1 header ts
    (r2.1, r1.2 :: r2.2)

/-! ## The generate endpoint -/

/-- An inbound generate request as the middleware chain and handler see
it: the kiosk header, the uploaded selfie (its size in bytes and its
media type) when one was sent, and the two body fields. -/
structure GenRequest where
  kioskHeader : Option String
  selfie : Option (Nat × String)
  backgroundId : Option String
  gender : Option String

/-- `fileSize` limit configured on the multer upload middleware. -/
def uploadSizeLimit : Nat := 10 * 1024 * 1024

/-- Outcome of one pass through the generate endpoint's middleware chain
and handler body, up to the point where work is (or is not) enqueued. -/
inductive GenOutcome
  | rateLimited
  | uploadRejected
  | serverError
  | missingFields
  | busy (queueSize : Nat)
  | enqueued (priority : Int)
deriving DecidableEq, Repr

/-- The `/api/generate` pipeline of the main server file: the
`kioskLimiter` middleware, then the multer upload middleware
(modelled from the spec and the multer configuration in the source: a
file over the configured `fileSize` limit aborts the request before the
handler body runs), then the handler body itself: read `req.file.buffer`
(a missing file makes this throw, which the catch turns into a 500),
check the required fields (400), check `generationQueue.size > 10`
(503 carrying the current queue size), and otherwise add the task to
the queue with the kiosk-derived priority. The server state is returned
untouched: the handler itself never writes counters or sessions. -/
def handleGenerate (st : ServerState) (queue : List Task) (nextIndex : Nat)
    (limSt : LimiterState) (req : GenRequest) (now : Nat) :
    ServerState × List Task × LimiterState × GenOutcome :=
  let lim := kioskLimiter limSt req.kioskHeader now
  if lim.2 = false then (st, queue, lim.1, .rateLimited)
  else
    match req.selfie with
    | none => (st, queue, lim.1, .serverError)
    | some (size, _) =>
      if size > uploadSizeLimit then (st, queue, lim.1, .uploadRejected)
      else
        match req.backgroundId, req.gender with
        | some _, some _ =>
          if queue.length > 10 then (st, queue, lim.1, .busy queue.length)
          else
            let p := priorityFor (kioskKey req.kioskHeader)
            (st, queue ++ [⟨p, nextIndex⟩], lim.1, .enqueued p)
        | _, _ => (st, queue, lim.1, .missingFields)

/-! ## Concrete states used by witnesses and counterexamples -/

/-- Server state right after a worker entry for kiosk-1 on the initial
state: one submission counted, one `processing` session in the ledger. -/
def c1State : ServerState :=
  (workerEntry initialServerState "a" "kiosk-1" "vondelpark" "male" 0).getD
    initialServerState

/-- A well-formed generate request from an unknown kiosk identifier. -/
def unknownKioskReq : GenRequest :=
  ⟨some "kiosk-9", some (100, "image/jpeg"), some "vondelpark", some "male"⟩

/-- Single-key view of one limiter step: the recorded timestamps of the
one key under consideration, and the admission decision. -/
def admitTimes (hits : List Nat) (now : Nat) : List Nat × Bool :=
  if windowHits hits now < rlMax then (now :: hits, true) else (hits, false)

/-- Single-key view of a run of limiter steps. -/
def runAdmit (hits : List Nat) : List Nat → List Nat × List Bool
  | [] => (hits, [])
  | t :: ts =>
    let r1 := admitTimes hits t
    let r2 := runAdmit r1.1 ts
    (r2.1, r1.2 :: r2.2)

/-- Inductive invariant of the scheduler: the concurrency ceiling holds,
every trailing window holds at most `maxDispatchesPerWindow` dispatches,
and queued tasks carry enqueue indices below the next fresh index. -/
def QInv (s : QueueState) : Prop :=
  s.running.length ≤ maxConcurrency ∧
  (∀ t, windowCount s.dispatchLog t ≤ maxDispatchesPerWindow) ∧
  (∀ u ∈ s.queued, u.enqueueIndex < s.nextIndex)

/-! ## Ledger lemmas -/

theorem mapSet_fresh (l : List (String × Session)) (sid : String) (s : Session)
    (h : ∀ p ∈ l, p.1 ≠ sid) : mapSet l sid s = l ++ [(sid, s)] := by
  unfold mapSet
  rw [if_neg]
  simp only [List.any_eq_true, decide_eq_true_eq]
  rintro ⟨p, hp, he⟩
  exact h p hp he

theorem mapGet_append_fresh (l : List (String × Session)) (sid : String) (s : Session)
    (h : ∀ p ∈ l, p.1 ≠ sid) : mapGet (l ++ [(sid, s)]) sid = some s := by
  induction l with
  | nil => simp [mapGet]
  | cons q rest ih =>
    have hq : ¬ q.1 = sid := h q (by simp)
    simp only [List.cons_append, mapGet] at *
    rw [List.find?_cons_of_neg _ (by simp [hq])]
    exact ih (fun p hp => h p (by simp [hp]))

theorem map_update_id (l : List (String × Session)) (sid : String) (s : Session)
    (h : ∀ p ∈ l, p.1 ≠ sid) :
    l.map (fun p => if p.1 = sid then (sid, s) else p) = l := by
  induction l with
  | nil => rfl
  | cons q rest ih =>
    simp only [List.map_cons, if_neg (h q (by simp))]
    rw [ih (fun p hp => h p (by simp [hp]))]

theorem mapGet_mapSet (l : List (String × Session)) (sid : String) (s : Session) :
    mapGet (mapSet l sid s) sid = some s := by
  unfold mapSet
  split
  case isTrue hany =>
    simp only [List.any_eq_true, decide_eq_true_eq] at hany
    obtain ⟨p0, hp0, he0⟩ := hany
    induction l with
    | nil => cases hp0
    | cons q rest ih =>
      by_cases hq : q.1 = sid
      · simp only [List.map_cons, if_pos hq, mapGet]
        rw [List.find?_cons_of_pos _ (by simp)]
        rfl
      · rcases List.mem_cons.mp hp0 with he | hmem
        · exact absurd (he ▸ he0) hq
        · simp only [List.map_cons, if_neg hq, mapGet]
          rw [List.find?_cons_of_neg _ (by simp [hq])]
          exact ih hmem
  case isFalse hany =>
    simp only [List.any_eq_true, decide_eq_true_eq] at hany
    exact mapGet_append_fresh l sid s (fun p hp he => hany ⟨p, hp, he⟩)

theorem length_filter_mapSet (l : List (String × Session)) (sid : String)
    (sNew : Session) (q : String × Session → Bool) (old : Session)
    (hnd : (l.map Prod.fst).Nodup) (hmem : (sid, old) ∈ l) :
    ((mapSet l sid sNew).filter q).length + (if q (sid, old) then 1 else 0)
      = (l.filter q).length + (if q (sid, sNew) then 1 else 0) := by
  have hany : l.any (fun p => p.1 = sid) = true := by
    simp only [List.any_eq_true, decide_eq_true_eq]
    exact ⟨(sid, old), hmem, rfl⟩
  unfold mapSet
  rw [if_pos hany]
  clear hany
  induction l with
  | nil => cases hmem
  | cons p rest ih =>
    simp only [List.map_cons, List.nodup_cons] at hnd
    by_cases hp : p.1 = sid
    · have hpe : p = (sid, old) := by
        rcases List.mem_cons.mp hmem with he | hm
        · exact he.symm
        · exfalso
          apply hnd.1
          rw [hp]
          exact List.mem_map_of_mem Prod.fst hm
      subst hpe
      simp only [List.map_cons, if_pos rfl]
      rw [map_update_id rest sid sNew (fun r hr he => hnd.1 (by
        rw [show ((sid, old).1 : String) = sid from rfl, ← he]
        exact List.mem_map_of_mem Prod.fst hr))]
      simp only [List.filter_cons]
      by_cases h1 : q (sid, old) <;> by_cases h2 : q (sid, sNew) <;>
        simp [h1, h2]
    · have hmem2 : (sid, old) ∈ rest := by
        rcases List.mem_cons.mp hmem with he | hm
        · exact absurd (congrArg Prod.fst he.symm) hp
        · exact hm
      simp only [List.map_cons, if_neg hp, List.filter_cons]
      have := ih hnd.2 hmem2
      by_cases hq : q p <;> simp [hq] <;> omega

theorem mapGet_of_mem (l : List (String × Session)) (sid : String) (s : Session)
    (hnd : (l.map Prod.fst).Nodup) (hmem : (sid, s) ∈ l) :
    mapGet l sid = some s := by
  induction l with
  | nil => cases hmem
  | cons p rest ih =>
    simp only [List.map_cons, List.nodup_cons] at hnd
    by_cases hp : p.1 = sid
    · have hpe : p = (sid, s) := by
        rcases List.mem_cons.mp hmem with he | hm
        · exact he.symm
        · exfalso
          apply hnd.1
          rw [hp]
          exact List.mem_map_of_mem Prod.fst hm
      simp only [mapGet]
      rw [List.find?_cons_of_pos _ (by simp [hp])]
      simp [hpe]
    · have hmem2 : (sid, s) ∈ rest := by
        rcases List.mem_cons.mp hmem with he | hm
        · exact absurd (congrArg Prod.fst he.symm) hp
        · exact hm
      simp only [mapGet] at *
      rw [List.find?_cons_of_neg _ (by simp [hp])]
      exact ih hnd.2 hmem2

/-! ## Counter-invariant preservation -/

theorem counterInvariant_workerEntry (st : ServerState) (sid k bg g : String)
    (now : Nat) (st2 : ServerState)
    (hfresh : ∀ p ∈ st.activeSessions, p.1 ≠ sid)
    (hentry : workerEntry st sid k bg g now = some st2)
    (hinv : counterInvariant st) : counterInvariant st2 := by
  unfold workerEntry at hentry
  cases hc : st.kioskStats k with
  | none => rw [hc] at hentry; cases hentry
  | some c =>
    rw [hc] at hentry
    injection hentry with hentry
    subst hentry
    intro j cj hj
    simp only at hj
    have hflight : inFlight
        { kioskStats := fun k2 => if k2 = k then
            some { c with total := c.total + 1, lastActive := some now }
          else st.kioskStats k2,
          activeSessions := mapSet st.activeSessions sid
            ⟨k, now, .processing, bg, g, none, none, none⟩ } j
        = inFlight st j + (if j = k then 1 else 0) := by
      unfold inFlight
      simp only
      rw [mapSet_fresh st.activeSessions sid _ hfresh, List.filter_append,
        List.length_append]
      congr 1
      by_cases hjk : j = k <;> simp [hjk]
      intro h
      exact absurd h.symm hjk
    rw [hflight]
    by_cases hjk : j = k
    · subst hjk
      rw [if_pos rfl] at hj ⊢
      injection hj with hj
      subst hj
      have := hinv j c hc
      simp only
      omega
    · rw [if_neg hjk] at hj ⊢
      have := hinv j cj hj
      omega

theorem length_filter_mapSet_terminal (l : List (String × Session)) (sid : String)
    (sess upd : Session) (j : String)
    (hnd : (l.map Prod.fst).Nodup) (hmem : (sid, sess) ∈ l)
    (hproc : sess.status = SessionStatus.processing)
    (hupd : upd.status ≠ SessionStatus.processing) :
    ((mapSet l sid upd).filter
        (fun p => decide (p.2.kioskId = j ∧ p.2.status = SessionStatus.processing))).length
      + (if sess.kioskId = j then 1 else 0)
      = (l.filter
        (fun p => decide (p.2.kioskId = j ∧ p.2.status = SessionStatus.processing))).length := by
  have h := length_filter_mapSet l sid upd
    (fun p => decide (p.2.kioskId = j ∧ p.2.status = SessionStatus.processing)) sess hnd hmem
  have hupd0 : (if (fun p => decide (p.2.kioskId = j ∧ p.2.status = SessionStatus.processing))
      (sid, upd) = true then (1 : Nat) else 0) = 0 := by
    rw [if_neg]
    simp only [decide_eq_true_eq]
    rintro ⟨h1, h2⟩
    exact hupd h2
  have hsess1 : (if (fun p => decide (p.2.kioskId = j ∧ p.2.status = SessionStatus.processing))
      (sid, sess) = true then (1 : Nat) else 0) = (if sess.kioskId = j then 1 else 0) := by
    by_cases hkj : sess.kioskId = j
    · rw [if_pos (by simp [hkj, hproc]), if_pos hkj]
    · rw [if_neg (by simp only [decide_eq_true_eq]; rintro ⟨h1, h2⟩; exact hkj h1), if_neg hkj]
  rw [hupd0, hsess1] at h
  omega

theorem counterInvariant_workerSuccess (st : ServerState) (sid k fn : String)
    (endT : Nat) (sess : Session)
    (hnd : ledgerWf st) (hmem : (sid, sess) ∈ st.activeSessions)
    (hproc : sess.status = .processing) (hk : sess.kioskId = k)
    (hinv : counterInvariant st) :
    counterInvariant (workerSuccess st sid k fn endT) := by
  have hget : mapGet st.activeSessions sid = some sess := mapGet_of_mem _ _ _ hnd hmem
  intro j cj hj
  simp only [workerSuccess, hget, Option.getD_some, updateStats] at hj ⊢
  have hcount := length_filter_mapSet_terminal st.activeSessions sid sess
    { sess with status := .completed, endTime := some endT, outputFile := some fn }
    j hnd hmem hproc (by simp)
  unfold inFlight
  simp only
  by_cases hjk : j = k
  · subst hjk
    rw [if_pos (by rw [hk])] at hcount
    rw [if_pos rfl] at hj
    obtain ⟨c, hc, hcj⟩ := Option.map_eq_some'.mp hj
    subst hcj
    have hbase := hinv j c hc
    unfold inFlight at hbase
    simp only
    omega
  · rw [if_neg (by rw [hk]; exact fun he => hjk he.symm)] at hcount
    rw [if_neg hjk] at hj
    have hbase := hinv j cj hj
    unfold inFlight at hbase
    omega

theorem counterInvariant_workerFailure (st : ServerState) (sid k msg : String)
    (endT : Nat) (sess : Session)
    (hnd : ledgerWf st) (hmem : (sid, sess) ∈ st.activeSessions)
    (hproc : sess.status = .processing) (hk : sess.kioskId = k)
    (hinv : counterInvariant st) :
    counterInvariant (workerFailure st sid k msg endT) := by
  have hget : mapGet st.activeSessions sid = some sess := mapGet_of_mem _ _ _ hnd hmem
  intro j cj hj
  simp only [workerFailure, hget, Option.getD_some, updateStats] at hj ⊢
  have hcount := length_filter_mapSet_terminal st.activeSessions sid sess
    { sess with status := .failed, errMsg := some msg, endTime := some endT }
    j hnd hmem hproc (by simp)
  unfold inFlight
  simp only
  by_cases hjk : j = k
  · subst hjk
    rw [if_pos (by rw [hk])] at hcount
    rw [if_pos rfl] at hj
    obtain ⟨c, hc, hcj⟩ := Option.map_eq_some'.mp hj
    subst hcj
    have hbase := hinv j c hc
    unfold inFlight at hbase
    simp only
    omega
  · rw [if_neg (by rw [hk]; exact fun he => hjk he.symm)] at hcount
    rw [if_neg hjk] at hj
    have hbase := hinv j cj hj
    unfold inFlight at hbase
    omega

theorem counterInvariant_sweep (st : ServerState) (now : Nat)
    (hterm : ∀ p ∈ st.activeSessions,
      p.2.startTime < now - sessionMaxAge → p.2.status ≠ .processing)
    (hinv : counterInvariant st) : counterInvariant (sweep st now) := by
  intro j cj hj
  have hj2 : st.kioskStats j = some cj := hj
  have hbase := hinv j cj hj2
  have hflight : inFlight (sweep st now) j = inFlight st j := by
    unfold inFlight sweep
    simp only
    rw [List.filter_filter]
    apply congrArg List.length
    apply List.filter_congr
    intro p hp
    by_cases hq : p.2.kioskId = j ∧ p.2.status = .processing
    · have hkeep : ¬ (p.2.startTime < now - sessionMaxAge) :=
        fun hold => hterm p hp hold hq.2
      simp [hq, hkeep]
    · simp [hq]
  rw [hflight]
  exact hbase

/-! ## Limiter lemmas -/

theorem windowHits_le_length (l : List Nat) (now : Nat) :
    windowHits l now ≤ l.length :=
  List.length_filter_le _ _

theorem admitTimes_allow (l : List Nat) (t : Nat) (h : windowHits l t < rlMax) :
    admitTimes l t = (t :: l, true) := by
  simp [admitTimes, h]

theorem admitTimes_reject (l : List Nat) (t : Nat) (h : ¬ windowHits l t < rlMax) :
    admitTimes l t = (l, false) := by
  simp [admitTimes, h]

theorem kioskLimiter_fst_hits (st : LimiterState) (header : Option String) (t : Nat) :
    (kioskLimiter st header t).1.hits (kioskKey header)
      = (admitTimes (st.hits (kioskKey header)) t).1 := by
  unfold kioskLimiter limiterAdmit admitTimes
  by_cases h : windowHits (st.hits (kioskKey header)) t < rlMax
  · rw [if_pos h, if_pos h]
    simp
  · rw [if_neg h, if_neg h]

theorem kioskLimiter_snd (st : LimiterState) (header : Option String) (t : Nat) :
    (kioskLimiter st header t).2 = (admitTimes (st.hits (kioskKey header)) t).2 := by
  unfold kioskLimiter limiterAdmit admitTimes
  by_cases h : windowHits (st.hits (kioskKey header)) t < rlMax
  · rw [if_pos h, if_pos h]
  · rw [if_neg h, if_neg h]

theorem runLimiter_snd (header : Option String) (ts : List Nat) :
    ∀ st : LimiterState,
      (runLimiter st header ts).2 = (runAdmit (st.hits (kioskKey header)) ts).2 := by
  induction ts with
  | nil => intro st; rfl
  | cons t ts ih =>
    intro st
    simp only [runLimiter, runAdmit]
    rw [kioskLimiter_snd, ih, kioskLimiter_fst_hits]

/-! ## Scheduler lemmas -/

theorem beats_true_iff (a b : Task) :
    beats a b = true ↔
      b.priority < a.priority ∨
        (a.priority = b.priority ∧ a.enqueueIndex < b.enqueueIndex) := by
  simp [beats]

theorem beats_false_of (a b : Task)
    (h : a.priority < b.priority ∨
      (a.priority = b.priority ∧ b.enqueueIndex ≤ a.enqueueIndex)) :
    beats a b = false := by
  rw [← Bool.not_eq_true, beats_true_iff]
  rintro (h1 | ⟨h1, h2⟩) <;> rcases h with h3 | ⟨h3, h4⟩ <;> omega

theorem not_beats_cases (a b : Task) (h : beats a b = false) :
    a.priority < b.priority ∨
      (a.priority = b.priority ∧ b.enqueueIndex ≤ a.enqueueIndex) := by
  rw [← Bool.not_eq_true, beats_true_iff] at h
  push_neg at h
  rcases h with ⟨h1, h2⟩
  rcases lt_trichotomy a.priority b.priority with h3 | h3 | h3
  · exact Or.inl h3
  · refine Or.inr ⟨h3, ?_⟩
    have := h2 h3
    omega
  · omega

theorem selectNext_nil_of_none (q : List Task) (h : selectNext q = none) : q = [] := by
  cases q with
  | nil => rfl
  | cons x xs =>
    exfalso
    simp only [selectNext] at h
    cases hy : selectNext xs <;> simp only [hy] at h
    · cases h
    · split at h <;> cases h

theorem selectNext_mem (q : List Task) (t : Task) (h : selectNext q = some t) :
    t ∈ q := by
  induction q generalizing t with
  | nil => cases h
  | cons x xs ih =>
    simp only [selectNext] at h
    cases hx : selectNext xs <;> simp only [hx] at h
    · injection h with h
      rw [← h]
      exact List.mem_cons_self x xs
    · rename_i u
      by_cases hb : beats u x = true
      · rw [if_pos hb] at h
        injection h with h
        exact List.mem_cons_of_mem x (h ▸ ih u hx)
      · rw [if_neg hb] at h
        injection h with h
        rw [← h]
        exact List.mem_cons_self x xs

theorem selectNext_optimal (q : List Task) (t : Task) (h : selectNext q = some t) :
    ∀ a ∈ q, beats a t = false := by
  induction q generalizing t with
  | nil => cases h
  | cons x xs ih =>
    simp only [selectNext] at h
    intro a ha
    cases hx : selectNext xs <;> simp only [hx] at h
    · have hnil : xs = [] := selectNext_nil_of_none xs hx
      injection h with h
      subst hnil
      rcases List.mem_cons.mp ha with he | he
      · rw [← h, he]
        exact beats_false_of x x (Or.inr ⟨rfl, le_refl _⟩)
      · cases he
    · rename_i u
      by_cases hb : beats u x = true
      · rw [if_pos hb] at h
        injection h with h
        rcases List.mem_cons.mp ha with he | he
        · rw [← h, he]
          rcases (beats_true_iff u x).mp hb with h1 | ⟨h1, h2⟩
          · exact beats_false_of x u (Or.inl h1)
          · exact beats_false_of x u (Or.inr ⟨h1.symm, le_of_lt h2⟩)
        · rw [← h]
          exact ih u hx a he
      · rw [if_neg hb] at h
        injection h with h
        rcases List.mem_cons.mp ha with he | he
        · rw [← h, he]
          exact beats_false_of x x (Or.inr ⟨rfl, le_refl _⟩)
        · rw [← h]
          have hb2 : beats u x = false := by
            rw [← Bool.not_eq_true]
            exact hb
          have hau := not_beats_cases a u (ih u hx a he)
          have hux := not_beats_cases u x hb2
          apply beats_false_of
          rcases hau with h1 | ⟨h1, h2⟩ <;> rcases hux with h3 | ⟨h3, h4⟩
          · exact Or.inl (lt_trans h1 h3)
          · exact Or.inl (h3 ▸ h1)
          · exact Or.inl (h1 ▸ h3)
          · exact Or.inr ⟨h1.trans h3, le_trans h4 h2⟩

theorem qinv_init : QInv initQueueState := by
  refine ⟨by simp [initQueueState, maxConcurrency], fun t => ?_, fun u hu => ?_⟩
  · simp [initQueueState, windowCount, maxDispatchesPerWindow]
  · cases hu

theorem qstep_preserves_qinv (s s2 : QueueState) (h : QStep s s2) (hinv : QInv s) :
    QInv s2 := by
  obtain ⟨h1, h2, h3⟩ := hinv
  cases h with
  | enqueue p =>
    refine ⟨h1, h2, fun u hu => ?_⟩
    rcases List.mem_append.mp hu with hm | hm
    · exact lt_trans (h3 u hm) (Nat.lt_succ_self _)
    · simp only [List.mem_singleton] at hm
      subst hm
      exact Nat.lt_succ_self _
  | dispatch t hsel hconc hrate =>
    refine ⟨?_, fun w => ?_, fun u hu => h3 u (List.mem_of_mem_erase hu)⟩
    · simp only [dispatchResult, List.length_cons]
      exact hconc
    · simp only [dispatchResult, windowCount, List.filter_cons]
      by_cases hc : (decide (s.clock ≤ w) && decide (w < s.clock + dispatchWindow)) = true
      · rw [if_pos hc]
        simp only [Bool.and_eq_true, decide_eq_true_eq] at hc
        have hmono : (List.filter
              (fun ts => decide (ts ≤ w) && decide (w < ts + dispatchWindow))
              s.dispatchLog).length ≤
            (List.filter (fun ts => decide (s.clock < ts + dispatchWindow))
              s.dispatchLog).length := by
          apply List.Sublist.length_le
          apply List.monotone_filter_right
          intro ts hts
          simp only [Bool.and_eq_true, decide_eq_true_eq] at hts
          simp only [decide_eq_true_eq]
          omega
        have hrate2 := hrate
        unfold recentCount at hrate2
        simp only [List.length_cons]
        unfold maxDispatchesPerWindow at hrate2 ⊢
        omega
      · rw [if_neg hc]
        exact h2 w
  | complete t hmem =>
    exact ⟨le_trans (List.Sublist.length_le (List.erase_sublist t s.running)) h1, h2, h3⟩
  | tick d =>
    exact ⟨h1, h2, h3⟩

theorem qreachable_qinv (s : QueueState) (h : QReachable s) : QInv s := by
  induction h with
  | refl => exact qinv_init
  | tail hsteps hstep ih => exact qstep_preserves_qinv _ _ hstep ih

theorem qstep_preserves_idxwf (s s2 : QueueState) (h : QStep s s2)
    (hwf : ∀ u ∈ s.queued, u.enqueueIndex < s.nextIndex) :
    ∀ u ∈ s2.queued, u.enqueueIndex < s2.nextIndex := by
  cases h with
  | enqueue p =>
    intro u hu
    rcases List.mem_append.mp hu with hm | hm
    · exact lt_trans (hwf u hm) (Nat.lt_succ_self _)
    · simp only [List.mem_singleton] at hm
      subst hm
      exact Nat.lt_succ_self _
  | dispatch t hsel hconc hrate =>
    exact fun u hu => hwf u (List.mem_of_mem_erase hu)
  | complete t hmem => exact hwf
  | tick d => exact hwf

theorem qstep_nextIndex_le (s s2 : QueueState) (h : QStep s s2) :
    s.nextIndex ≤ s2.nextIndex := by
  cases h with
  | enqueue p => exact Nat.le_succ _
  | dispatch t hsel hconc hrate => exact le_refl _
  | complete t hmem => exact le_refl _
  | tick d => exact le_refl _

/-- Along any run of the scheduler, a strictly preferable task (higher
priority, or equal priority and earlier enqueue) leaves the queue no
later than the weaker task: whenever the preferable task is still
queued, the weaker one is still queued too. -/
theorem no_overtake_aux (a b : Task) (hbeats : beats a b = true)
    (s s2 : QueueState) (hrun : Relation.ReflTransGen QStep s s2)
    (hstart : (a ∈ s.queued → b ∈ s.queued) ∧ a.enqueueIndex < s.nextIndex ∧
      (∀ u ∈ s.queued, u.enqueueIndex < s.nextIndex)) :
    (a ∈ s2.queued → b ∈ s2.queued) ∧ a.enqueueIndex < s2.nextIndex ∧
      (∀ u ∈ s2.queued, u.enqueueIndex < s2.nextIndex) := by
  induction hrun with
  | refl => exact hstart
  | tail hsteps hstep ih =>
    obtain ⟨hab, haidx, hwf⟩ := ih
    rename_i smid s3
    refine ⟨?_, lt_of_lt_of_le haidx (qstep_nextIndex_le smid s3 hstep),
      qstep_preserves_idxwf smid s3 hstep hwf⟩
    cases hstep with
    | enqueue p =>
      intro ha3
      rcases List.mem_append.mp ha3 with hm | hm
      · exact List.mem_append.mpr (Or.inl (hab hm))
      · simp only [List.mem_singleton] at hm
        have : a.enqueueIndex = smid.nextIndex := by rw [hm]
        omega
    | dispatch t hsel hconc hrate =>
      intro ha3
      have hain : a ∈ smid.queued := List.mem_of_mem_erase ha3
      have hbin : b ∈ smid.queued := hab hain
      by_cases hbt : b = t
      · subst hbt
        have := selectNext_optimal smid.queued b hsel a hain
        rw [hbeats] at this
        cases this
      · exact (List.mem_erase_of_ne hbt).mpr hbin
    | complete t hmem => exact hab
    | tick d => exact hab

/-! ## Claim theorems -/

/-- Claim C3: at no instant does the number of tasks in the Running state
of the generation queue exceed the configured maxConcurrency of 2: in
every reachable scheduler state the running set has at most
maxConcurrency elements. -/
theorem C3_running_never_exceeds_maxConcurrency (s : QueueState)
    (h : QReachable s) : s.running.length ≤ maxConcurrency :=
  (qreachable_qinv s h).1

/-- Witness for C3: a concrete reachable state (one enqueue, one
dispatch) satisfies the concurrency bound. -/
theorem C3_running_never_exceeds_maxConcurrency_witness :
    QReachable (dispatchResult ⟨[⟨0, 0⟩], [], [], 0, 1⟩ ⟨0, 0⟩) ∧
      (dispatchResult ⟨[⟨0, 0⟩], [], [], 0, 1⟩ ⟨0, 0⟩).running.length
        ≤ maxConcurrency := by
  have h1 : QStep initQueueState ⟨[⟨0, 0⟩], [], [], 0, 1⟩ :=
    QStep.enqueue initQueueState 0
  have h2 : QStep (⟨[⟨0, 0⟩], [], [], 0, 1⟩ : QueueState)
      (dispatchResult ⟨[⟨0, 0⟩], [], [], 0, 1⟩ ⟨0, 0⟩) :=
    QStep.dispatch _ _ (by decide) (by decide) (by decide)
  have hr : QReachable (dispatchResult ⟨[⟨0, 0⟩], [], [], 0, 1⟩ ⟨0, 0⟩) :=
    Relation.ReflTransGen.tail (Relation.ReflTransGen.single h1) h2
  exact ⟨hr, C3_running_never_exceeds_maxConcurrency _ hr⟩

/-- Claim C4: in every reachable scheduler state, every trailing window
of duration dispatchWindow contains at most maxDispatchesPerWindow
queued-to-running transitions. -/
theorem C4_dispatches_bounded_in_window (s : QueueState)
    (h : QReachable s) (t : Nat) :
    windowCount s.dispatchLog t ≤ maxDispatchesPerWindow :=
  (qreachable_qinv s h).2.1 t

/-- Witness for C4: the bound evaluated on a concrete reachable state
with one logged dispatch, at the window ending at time 0. -/
theorem C4_dispatches_bounded_in_window_witness :
    QReachable (dispatchResult ⟨[⟨2, 0⟩], [], [], 0, 1⟩ ⟨2, 0⟩) ∧
      windowCount (dispatchResult ⟨[⟨2, 0⟩], [], [], 0, 1⟩ ⟨2, 0⟩).dispatchLog 0
        ≤ maxDispatchesPerWindow := by
  have h1 : QStep initQueueState ⟨[⟨2, 0⟩], [], [], 0, 1⟩ :=
    QStep.enqueue initQueueState 2
  have h2 : QStep (⟨[⟨2, 0⟩], [], [], 0, 1⟩ : QueueState)
      (dispatchResult ⟨[⟨2, 0⟩], [], [], 0, 1⟩ ⟨2, 0⟩) :=
    QStep.dispatch _ _ (by decide) (by decide) (by decide)
  have hr : QReachable (dispatchResult ⟨[⟨2, 0⟩], [], [], 0, 1⟩ ⟨2, 0⟩) :=
    Relation.ReflTransGen.tail (Relation.ReflTransGen.single h1) h2
  exact ⟨hr, C4_dispatches_bounded_in_window _ hr 0⟩

/-- Claim C2: dispatch follows strict priority order with FIFO among
equal priorities — the task selected for dispatch is never beaten by any
queued task (`beats` is: higher priority, or equal priority and earlier
enqueue index), and along any scheduler run from a well-indexed state
where both tasks are queued, the weaker task is still queued whenever
the stronger one is (so the stronger is dispatched no later); the
generate handler assigns priority 1 to kiosk-3 submissions and 0 to all
others. -/
theorem C2_strict_priority_fifo_dispatch :
    (∀ q t a, selectNext q = some t → a ∈ q → beats a t = false) ∧
    (∀ s s2 a b, Relation.ReflTransGen QStep s s2 →
      (∀ u ∈ s.queued, u.enqueueIndex < s.nextIndex) →
      a ∈ s.queued → b ∈ s.queued → beats a b = true →
      (a ∈ s2.queued → b ∈ s2.queued)) ∧
    priorityFor "kiosk-3" = 1 ∧ (∀ k, k ≠ "kiosk-3" → priorityFor k = 0) := by
  refine ⟨fun q t a hsel ha => selectNext_optimal q t hsel a ha,
    fun s s2 a b hrun hwf ha hb hbeats =>
      (no_overtake_aux a b hbeats s s2 hrun ⟨fun _ => hb, hwf a ha, hwf⟩).1,
    rfl, fun k hk => if_neg hk⟩

/-- Witness for C2: in a queue holding a priority-1 task and an earlier
priority-0 task, the selection and the run-level guarantee hold at a
concrete two-dispatch run. -/
theorem C2_strict_priority_fifo_dispatch_witness :
    beats ⟨1, 1⟩ ⟨0, 0⟩ = true ∧
    beats ⟨0, 0⟩ ⟨1, 1⟩ = false ∧
    ((⟨1, 1⟩ : Task) ∈
        (dispatchResult (dispatchResult ⟨[⟨0, 0⟩, ⟨1, 1⟩], [], [], 0, 2⟩ ⟨1, 1⟩)
          ⟨0, 0⟩).queued →
      (⟨0, 0⟩ : Task) ∈
        (dispatchResult (dispatchResult ⟨[⟨0, 0⟩, ⟨1, 1⟩], [], [], 0, 2⟩ ⟨1, 1⟩)
          ⟨0, 0⟩).queued) := by
  refine ⟨by decide,
    C2_strict_priority_fifo_dispatch.1 [⟨0, 0⟩, ⟨1, 1⟩] ⟨1, 1⟩ ⟨0, 0⟩
      (by decide) (by decide), ?_⟩
  have h1 : QStep (⟨[⟨0, 0⟩, ⟨1, 1⟩], [], [], 0, 2⟩ : QueueState)
      (dispatchResult ⟨[⟨0, 0⟩, ⟨1, 1⟩], [], [], 0, 2⟩ ⟨1, 1⟩) :=
    QStep.dispatch _ _ (by decide) (by decide) (by decide)
  have h2 : QStep (dispatchResult (⟨[⟨0, 0⟩, ⟨1, 1⟩], [], [], 0, 2⟩ : QueueState) ⟨1, 1⟩)
      (dispatchResult (dispatchResult ⟨[⟨0, 0⟩, ⟨1, 1⟩], [], [], 0, 2⟩ ⟨1, 1⟩) ⟨0, 0⟩) :=
    QStep.dispatch _ _ (by decide) (by decide) (by decide)
  exact C2_strict_priority_fifo_dispatch.2.1 _ _ ⟨1, 1⟩ ⟨0, 0⟩
    (Relation.ReflTransGen.tail (Relation.ReflTransGen.single h1) h2)
    (by decide) (by decide) (by decide) (by decide)

/-- Claim C9: the S3 server's rate limiter skips rate accounting
entirely for the designated test identifier — a request whose kiosk
header is exactly test-script is always admitted and the limiter state
is returned unchanged, regardless of previously recorded requests. -/
theorem C9_test_script_bypasses_rate_accounting (st : LimiterState) (now : Nat) :
    kioskLimiterS3 st (some "test-script") now = (st, true) := by
  simp [kioskLimiterS3]

/-- Claim C7: six requests from one kiosk inside one 60-second window
produce exactly one rejection, the sixth; a further request sent once
60 seconds have elapsed from the first is admitted again. -/
theorem C7_rate_limit_window (k : String) (t1 t2 t3 t4 t5 t6 t7 : Nat)
    (h12 : t1 ≤ t2) (h23 : t2 ≤ t3) (h34 : t3 ≤ t4) (h45 : t4 ≤ t5)
    (h56 : t5 ≤ t6) (h67 : t6 ≤ t7)
    (hwin : t6 < t1 + rlWindowMs) (hafter : t1 + rlWindowMs ≤ t7) :
    (runLimiter initLimiterState (some k) [t1, t2, t3, t4, t5, t6, t7]).2 =
      [true, true, true, true, true, false, true] := by
  rw [runLimiter_snd]
  show (runAdmit [] [t1, t2, t3, t4, t5, t6, t7]).2 = _
  have a1 : admitTimes [] t1 = ([t1], true) :=
    admitTimes_allow _ _ (by norm_num [windowHits, rlMax])
  have a2 : admitTimes [t1] t2 = ([t2, t1], true) :=
    admitTimes_allow _ _
      (lt_of_le_of_lt (windowHits_le_length _ _) (by norm_num [rlMax]))
  have a3 : admitTimes [t2, t1] t3 = ([t3, t2, t1], true) :=
    admitTimes_allow _ _
      (lt_of_le_of_lt (windowHits_le_length _ _) (by norm_num [rlMax]))
  have a4 : admitTimes [t3, t2, t1] t4 = ([t4, t3, t2, t1], true) :=
    admitTimes_allow _ _
      (lt_of_le_of_lt (windowHits_le_length _ _) (by norm_num [rlMax]))
  have a5 : admitTimes [t4, t3, t2, t1] t5 = ([t5, t4, t3, t2, t1], true) :=
    admitTimes_allow _ _
      (lt_of_le_of_lt (windowHits_le_length _ _) (by norm_num [rlMax]))
  have a6 : admitTimes [t5, t4, t3, t2, t1] t6 = ([t5, t4, t3, t2, t1], false) := by
    apply admitTimes_reject
    have hfull : windowHits [t5, t4, t3, t2, t1] t6 = 5 := by
      unfold windowHits
      rw [List.filter_eq_self.mpr]
      · rfl
      · intro x hx
        simp only [Bool.and_eq_true, decide_eq_true_eq]
        fin_cases hx <;> omega
    rw [hfull]
    norm_num [rlMax]
  have a7 : admitTimes [t5, t4, t3, t2, t1] t7
      = (t7 :: [t5, t4, t3, t2, t1], true) := by
    apply admitTimes_allow
    unfold windowHits
    rw [show [t5, t4, t3, t2, t1] = [t5, t4, t3, t2] ++ [t1] from rfl,
      List.filter_append]
    have h0 : List.filter
        (fun ts => decide (ts ≤ t7) && decide (t7 < ts + rlWindowMs)) [t1] = [] := by
      simp only [List.filter_cons, List.filter_nil]
      rw [if_neg]
      simp only [Bool.and_eq_true, decide_eq_true_eq]
      omega
    rw [h0]
    have hlen : (List.filter
        (fun ts => decide (ts ≤ t7) && decide (t7 < ts + rlWindowMs))
        [t5, t4, t3, t2]).length ≤ 4 := by
      simpa using List.length_filter_le
        (fun ts => decide (ts ≤ t7) && decide (t7 < ts + rlWindowMs)) [t5, t4, t3, t2]
    simp only [List.length_append, List.length_nil]
    unfold rlMax
    omega
  simp [runAdmit, a1, a2, a3, a4, a5, a6, a7]

/-- Witness for C7: concrete request times 0..5 within one window and a
seventh request at 60000 ms. -/
theorem C7_rate_limit_window_witness :
    ((5 : Nat) < 0 + rlWindowMs ∧ (0 : Nat) + rlWindowMs ≤ 60000) ∧
    (runLimiter initLimiterState (some "kiosk-1") [0, 1, 2, 3, 4, 5, 60000]).2 =
      [true, true, true, true, true, false, true] :=
  ⟨⟨by norm_num [rlWindowMs], by norm_num [rlWindowMs]⟩,
   C7_rate_limit_window "kiosk-1" 0 1 2 3 4 5 60000 (by norm_num) (by norm_num)
     (by norm_num) (by norm_num) (by norm_num) (by norm_num)
     (by norm_num [rlWindowMs]) (by norm_num [rlWindowMs])⟩

/-- Claim C6: a generate submission that passes the rate limiter and the
upload middleware and carries its required fields, arriving while the
queue holds more than 10 queued tasks, is answered with the busy
rejection carrying the current queue depth; nothing is enqueued and the
server state (counters and sessions) is untouched, so processGeneration
never runs for it. -/
theorem C6_capacity_rejection (st : ServerState) (queue : List Task)
    (nextIndex : Nat) (limSt : LimiterState) (req : GenRequest) (now : Nat)
    (size : Nat) (mt bg g : String)
    (hok : (kioskLimiter limSt req.kioskHeader now).2 = true)
    (hself : req.selfie = some (size, mt))
    (hsize : size ≤ uploadSizeLimit)
    (hbg : req.backgroundId = some bg) (hg : req.gender = some g)
    (hdepth : queue.length > 10) :
    handleGenerate st queue nextIndex limSt req now =
      (st, queue, (kioskLimiter limSt req.kioskHeader now).1,
        .busy queue.length) := by
  simp [handleGenerate, hok, hself, hbg, hg, hdepth, Nat.not_lt.mpr hsize]

/-- Witness for C6: a concrete well-formed kiosk-1 submission against a
queue already holding 11 tasks. -/
theorem C6_capacity_rejection_witness :
    (List.replicate 11 (⟨0, 0⟩ : Task)).length > 10 ∧
    handleGenerate initialServerState (List.replicate 11 ⟨0, 0⟩) 11
        initLimiterState
        ⟨some "kiosk-1", some (100, "image/jpeg"), some "vondelpark", some "male"⟩
        0 =
      (initialServerState, List.replicate 11 ⟨0, 0⟩,
        (kioskLimiter initLimiterState (some "kiosk-1") 0).1,
        .busy (List.replicate 11 (⟨0, 0⟩ : Task)).length) := by
  refine ⟨by norm_num, ?_⟩
  exact C6_capacity_rejection initialServerState (List.replicate 11 ⟨0, 0⟩) 11
    initLimiterState
    ⟨some "kiosk-1", some (100, "image/jpeg"), some "vondelpark", some "male"⟩
    0 100 "image/jpeg" "vondelpark" "male" rfl rfl
    (by norm_num [uploadSizeLimit]) rfl rfl (by norm_num)

/-- Claim C10: a generate submission whose selfie exceeds the configured
10 MiB limit and which passes the rate limiter is rejected by the upload
middleware before the handler body runs: nothing is enqueued and the
server state (counters and sessions) is untouched. -/
theorem C10_upload_size_rejection (st : ServerState) (queue : List Task)
    (nextIndex : Nat) (limSt : LimiterState) (req : GenRequest) (now : Nat)
    (size : Nat) (mt : String)
    (hok : (kioskLimiter limSt req.kioskHeader now).2 = true)
    (hself : req.selfie = some (size, mt))
    (hsize : size > uploadSizeLimit) :
    handleGenerate st queue nextIndex limSt req now =
      (st, queue, (kioskLimiter limSt req.kioskHeader now).1,
        .uploadRejected) := by
  simp [handleGenerate, hok, hself, hsize]

/-- Witness for C10: a selfie one byte over the limit. -/
theorem C10_upload_size_rejection_witness :
    (10 * 1024 * 1024 + 1 : Nat) > uploadSizeLimit ∧
    handleGenerate initialServerState [] 0 initLimiterState
        ⟨some "kiosk-1", some (10 * 1024 * 1024 + 1, "image/jpeg"),
          some "vondelpark", some "male"⟩ 0 =
      (initialServerState, [],
        (kioskLimiter initLimiterState (some "kiosk-1") 0).1,
        .uploadRejected) := by
  refine ⟨by norm_num [uploadSizeLimit], ?_⟩
  exact C10_upload_size_rejection initialServerState [] 0 initLimiterState
    ⟨some "kiosk-1", some (10 * 1024 * 1024 + 1, "image/jpeg"),
      some "vondelpark", some "male"⟩ 0 (10 * 1024 * 1024 + 1) "image/jpeg"
    rfl rfl (by norm_num [uploadSizeLimit])

/-- Counterexample for C8: a well-formed submission carrying the unknown
kiosk identifier kiosk-9 is not rejected at admission — the handler
enqueues it with priority 0, so queueing (and then worker execution) do
happen for unknown kiosk identifiers. -/
theorem C8_unknown_kiosk_counterexample :
    (handleGenerate initialServerState [] 0 initLimiterState unknownKioskReq
      0).2.2.2 = GenOutcome.enqueued 0 ∧
    (handleGenerate initialServerState [] 0 initLimiterState unknownKioskReq
      0).2.1 = [⟨0, 0⟩] := by
  constructor <;> rfl

/-- Claim C8 (amended): unknown kiosk identifiers are not rejected at
admission — any well-formed submission is enqueued whenever the limiter
admits it and the queue is under the soft ceiling, regardless of the
kiosk header — but no counter record is ever silently added: the worker
invocation for an identifier without a counter record throws before
creating a session or touching any counter, leaving the server state
unchanged and surfacing an error to the caller. -/
theorem C8_unknown_kiosk_enqueued_but_uncounted :
    (∀ st queue nextIndex limSt req now size mt bg g,
      (kioskLimiter limSt req.kioskHeader now).2 = true →
      req.selfie = some (size, mt) → size ≤ uploadSizeLimit →
      req.backgroundId = some bg → req.gender = some g →
      queue.length ≤ 10 →
      handleGenerate st queue nextIndex limSt req now =
        (st, queue ++ [⟨priorityFor (kioskKey req.kioskHeader), nextIndex⟩],
          (kioskLimiter limSt req.kioskHeader now).1,
          .enqueued (priorityFor (kioskKey req.kioskHeader)))) ∧
    (∀ st sid k bg g t env, st.kioskStats k = none →
      processGeneration st sid k bg g t env =
        (st, .error "TypeError: cannot read total of undefined")) := by
  constructor
  · intro st queue nextIndex limSt req now size mt bg g hok hself hsize hbg hg hdepth
    simp [handleGenerate, hok, hself, hbg, hg, Nat.not_lt.mpr hsize,
      Nat.not_lt.mpr hdepth]
  · intro st sid k bg g t env hnone
    unfold processGeneration workerEntry
    rw [hnone]

/-- Witness for C8 (amended): the kiosk-9 submission is enqueued, and the
worker invocation for kiosk-9 leaves the initial state untouched while
raising the error. -/
theorem C8_unknown_kiosk_enqueued_but_uncounted_witness :
    initialServerState.kioskStats "kiosk-9" = none ∧
    handleGenerate initialServerState [] 0 initLimiterState unknownKioskReq 0 =
      (initialServerState, [⟨0, 0⟩],
        (kioskLimiter initLimiterState (some "kiosk-9") 0).1, .enqueued 0) ∧
    processGeneration initialServerState "s1" "kiosk-9" "vondelpark" "male" 0
        ⟨.ok (), .failure "boom", .ok (), 5⟩ =
      (initialServerState, .error "TypeError: cannot read total of undefined") := by
  refine ⟨rfl, ?_, ?_⟩
  · have h := C8_unknown_kiosk_enqueued_but_uncounted.1 initialServerState [] 0
      initLimiterState unknownKioskReq 0 100 "image/jpeg" "vondelpark" "male"
      rfl rfl (by norm_num [uploadSizeLimit]) rfl rfl (by norm_num)
    exact h.trans (by rfl)
  · exact C8_unknown_kiosk_enqueued_but_uncounted.2 initialServerState "s1"
      "kiosk-9" "vondelpark" "male" 0 ⟨.ok (), .failure "boom", .ok (), 5⟩ rfl

/-- Claim C5: a worker invocation on a known kiosk that reaches the
upstream call and fails there (rejected call, or a response with no
image payload) increments the failed counter exactly once, leaves the
completed counter unchanged, sets the session to terminal failed status
with the (non-empty) error description and an end timestamp, and
re-raises the error to the awaiter. -/
theorem C5_upstream_failure_bookkeeping
    (st : ServerState) (sid kioskId backgroundId gender : String)
    (startTime : Nat) (env : GenEnv) (c : KioskCounters) (m : String)
    (hstats : st.kioskStats kioskId = some c)
    (hbg : (BACKGROUNDS backgroundId).isSome = true)
    (hread : env.readBackground = Except.ok ())
    (hfail : upstreamFailureMsg env.upstream = some m)
    (hm : m ≠ "") :
    (processGeneration st sid kioskId backgroundId gender startTime
        env).1.kioskStats kioskId =
      some ⟨c.total + 1, c.completed, c.failed + 1, some startTime⟩ ∧
    mapGet (processGeneration st sid kioskId backgroundId gender startTime
        env).1.activeSessions sid =
      some ⟨kioskId, startTime, .failed, backgroundId, gender,
        some env.endTime, none, some m⟩ ∧
    m ≠ "" ∧
    (processGeneration st sid kioskId backgroundId gender startTime env).2 =
      .error m := by
  obtain ⟨bi, hbi⟩ := Option.isSome_iff_exists.mp hbg
  have htry : workerTryBlock kioskId backgroundId sid env = Except.error m := by
    cases hu : env.upstream with
    | failure msg =>
      have hm2 : msg = m := by
        rw [hu] at hfail
        simpa [upstreamFailureMsg] using hfail
      subst hm2
      simp [workerTryBlock, hbi, hread, hu]
    | response parts =>
      rw [hu] at hfail
      cases hfd : firstData parts with
      | none =>
        have hm2 : m = "No image generated" := by
          simp [upstreamFailureMsg, hfd] at hfail
          exact hfail.symm
        subst hm2
        simp [workerTryBlock, hbi, hread, hu, hfd]
      | some d =>
        exfalso
        simp [upstreamFailureMsg, hfd] at hfail
  have hent : workerEntry st sid kioskId backgroundId gender startTime =
      some { kioskStats := fun k2 => if k2 = kioskId then
               some { c with total := c.total + 1, lastActive := some startTime }
             else st.kioskStats k2,
             activeSessions := mapSet st.activeSessions sid
               ⟨kioskId, startTime, .processing, backgroundId, gender,
                 none, none, none⟩ } := by
    unfold workerEntry
    rw [hstats]
  unfold processGeneration
  rw [hent, htry]
  refine ⟨?_, ?_, hm, rfl⟩
  · simp [workerFailure, updateStats, mapGet_mapSet]
  · simp [workerFailure, updateStats, mapGet_mapSet]

/-- Witness for C5: kiosk-1 invocation whose upstream call rejects with
message boom. -/
theorem C5_upstream_failure_bookkeeping_witness :
    initialServerState.kioskStats "kiosk-1" = some zeroCounters ∧
    upstreamFailureMsg (UpstreamResult.failure "boom") = some "boom" ∧
    (processGeneration initialServerState "s1" "kiosk-1" "vondelpark" "male" 0
        ⟨.ok (), .failure "boom", .ok (), 5⟩).1.kioskStats "kiosk-1" =
      some ⟨1, 0, 1, some 0⟩ ∧
    (processGeneration initialServerState "s1" "kiosk-1" "vondelpark" "male" 0
        ⟨.ok (), .failure "boom", .ok (), 5⟩).2 = .error "boom" := by
  have h := C5_upstream_failure_bookkeeping initialServerState "s1" "kiosk-1"
    "vondelpark" "male" 0 ⟨.ok (), .failure "boom", .ok (), 5⟩ zeroCounters
    "boom" rfl rfl rfl rfl (by decide)
  exact ⟨rfl, rfl, h.1.trans (by rfl), h.2.2.2⟩

/-- Case split for the pre-provisioned counter table. -/
theorem initialKioskStats_cases (k : String) :
    initialKioskStats k = none ∨ initialKioskStats k = some zeroCounters := by
  unfold initialKioskStats
  split
  · exact Or.inr rfl
  · split
    · exact Or.inr rfl
    · split
      · exact Or.inr rfl
      · split
        · exact Or.inr rfl
        · exact Or.inl rfl

/-- The counter invariant holds at process start. -/
theorem counterInvariant_initial : counterInvariant initialServerState := by
  intro k c hk
  have hz : inFlight initialServerState k = 0 := rfl
  rw [hz]
  rcases initialKioskStats_cases k with h | h
  · rw [show initialServerState.kioskStats k = initialKioskStats k from rfl, h] at hk
    cases hk
  · rw [show initialServerState.kioskStats k = initialKioskStats k from rfl, h] at hk
    injection hk with hk
    subst hk
    rfl

/-- Claim C1 (amended): the per-kiosk equation total = completed +
failed + inFlight is preserved by worker entry (fresh session
identifier), by the success path and by the failure path (terminal
update of the owned processing session); the periodic session sweep
preserves it only under the extra condition that every session past the
retention threshold is already terminal — a stuck processing session
older than the threshold is deleted by the sweep while the counters are
untouched, which breaks the equation (see the counterexample). -/
theorem C1_counter_equation_amended :
    (∀ st sid k bg g now st2, (∀ p ∈ st.activeSessions, p.1 ≠ sid) →
      workerEntry st sid k bg g now = some st2 →
      counterInvariant st → counterInvariant st2) ∧
    (∀ st sid k fn endT sess, ledgerWf st → (sid, sess) ∈ st.activeSessions →
      sess.status = .processing → sess.kioskId = k → counterInvariant st →
      counterInvariant (workerSuccess st sid k fn endT)) ∧
    (∀ st sid k msg endT sess, ledgerWf st → (sid, sess) ∈ st.activeSessions →
      sess.status = .processing → sess.kioskId = k → counterInvariant st →
      counterInvariant (workerFailure st sid k msg endT)) ∧
    (∀ st now, (∀ p ∈ st.activeSessions,
        p.2.startTime < now - sessionMaxAge → p.2.status ≠ .processing) →
      counterInvariant st → counterInvariant (sweep st now)) :=
  ⟨fun st sid k bg g now st2 => counterInvariant_workerEntry st sid k bg g now st2,
   fun st sid k fn endT sess => counterInvariant_workerSuccess st sid k fn endT sess,
   fun st sid k msg endT sess => counterInvariant_workerFailure st sid k msg endT sess,
   fun st now => counterInvariant_sweep st now⟩

/-- Counterexample for C1 as stated: after a worker entry for kiosk-1
the equation holds, but the session sweep two hours later deletes the
still-processing session while leaving the counters untouched, so the
equation fails for kiosk-1 right after the sweep. -/
theorem C1_counter_equation_counterexample :
    workerEntry initialServerState "a" "kiosk-1" "vondelpark" "male" 0 =
      some c1State ∧
    counterInvariant c1State ∧
    ¬ counterInvariant (sweep c1State 7200000) := by
  refine ⟨rfl, ?_, fun h => ?_⟩
  · intro k c hk
    by_cases h1 : k = "kiosk-1"
    · subst h1
      rw [show c1State.kioskStats "kiosk-1" =
        some (⟨1, 0, 0, some 0⟩ : KioskCounters) from rfl] at hk
      injection hk with hk
      subst hk
      decide
    · rw [show c1State.kioskStats k =
        (if k = "kiosk-1" then some (⟨1, 0, 0, some 0⟩ : KioskCounters)
          else initialKioskStats k) from rfl, if_neg h1] at hk
      have hf : inFlight c1State k = 0 := by
        unfold inFlight
        rw [show c1State.activeSessions =
          [("a", ⟨"kiosk-1", 0, .processing, "vondelpark", "male",
            none, none, none⟩)] from rfl]
        rw [List.filter_cons, if_neg, List.filter_nil]
        · rfl
        · simp only [decide_eq_true_eq]
          rintro ⟨hx, _⟩
          exact h1 hx.symm
      rw [hf]
      rcases initialKioskStats_cases k with h | h
      · rw [h] at hk
        cases hk
      · rw [h] at hk
        injection hk with hk
        subst hk
        rfl
  · have h1 := h "kiosk-1" ⟨1, 0, 0, some 0⟩ rfl
    revert h1
    decide

/-- Witness for C1 (amended): the entry-path preservation applied to the
initial state. -/
theorem C1_counter_equation_amended_witness :
    (∀ p ∈ initialServerState.activeSessions, p.1 ≠ "a") ∧
    workerEntry initialServerState "a" "kiosk-1" "vondelpark" "male" 0 =
      some c1State ∧
    counterInvariant initialServerState ∧ counterInvariant c1State := by
  refine ⟨by simp [initialServerState], rfl, counterInvariant_initial, ?_⟩
  exact C1_counter_equation_amended.1 initialServerState "a" "kiosk-1"
    "vondelpark" "male" 0 c1State (by simp [initialServerState]) rfl
    counterInvariant_initial

end Photobooth
